import Mathlib

/-!
Verification development for the LLM tool-loop agent repository.

The Python sources are shallowly embedded:
* paths are lists of characters, the filesystem is a flat association list
  from absolute file paths to contents (directories exist exactly when some
  file lives beneath them; empty directories are not representable);
* `os.path.abspath` / `os.path.join` are modelled by lexical normalization
  (`..`, `.` and empty components resolved); symbolic links do not exist in
  the model, matching the fact that the Python code never resolves them
  either (it calls `abspath`, not `realpath`);
* the todo store is modelled at the level of parsed JSON values (a list of
  todo items); JSON (de)serialization text is not modelled;
* `difflib.unified_diff` is an external library call and is modelled as an
  explicit function parameter producing the list of diff lines;
* Python exceptions are modelled with `Except`; the error-catching decorator
  `handle_errors` converts them to `"Error: ..."` strings.  Exception message
  texts for argument-binding errors approximate CPython's wording.
-/

/-! ## Path resolution (`os.path.join` / `os.path.abspath`, lexical part) -/

/-- Split a path into components at `/` characters. -/
def splitSlash : List Char → List (List Char)
  | [] => [[]]
  | c :: rest =>
    match splitSlash rest with
    | [] => [[]]
    | comp :: comps => if c = '/' then [] :: comp :: comps else (c :: comp) :: comps

/-- Process components the way `posixpath.normpath` does on an absolute path:
empty and `.` components vanish, `..` pops the last kept component (and is
dropped at the root). -/
def normStack (comps : List (List Char)) : List (List Char) :=
  comps.foldl
    (fun st comp =>
      if comp = [] ∨ comp = ['.'] then st
      else if comp = ['.', '.'] then st.dropLast
      else st ++ [comp])
    []

/-- Rebuild an absolute path from its components. -/
def joinAbs (comps : List (List Char)) : List Char :=
  '/' :: List.intercalate ['/'] comps

/-- Model of `posixpath.normpath` on an absolute path (the double-leading-slash POSIX
quirk is not modelled; no input in this development uses it). -/
def normAbs (p : List Char) : List Char :=
  joinAbs (normStack (splitSlash p))

/-- Model of `os.path.join a b` for one extra component: an absolute `b` replaces `a`. -/
def osJoin (a b : List Char) : List Char :=
  if b.head? = some '/' then b
  else if a = [] then b
  else if a.getLast? = some '/' then a ++ b
  else a ++ ['/'] ++ b

/-- Model of `os.path.abspath p` relative to the process working directory `cwd`
(assumed absolute): join, then lexical normalization. -/
def osAbspath (cwd p : List Char) : List Char :=
  normAbs (osJoin cwd p)

/-- Modelled from the spec: true containment compares canonical path
*components*, not raw strings — `child` is a descendant of `root` when the
normalized component list of `root` is a prefix of that of `child`. -/
def isDescendant (child root : List Char) : Bool :=
  (normStack (splitSlash root)).isPrefixOf (normStack (splitSlash child))

/-! ## Flat filesystem -/

/-- A filesystem: absolute file path ↦ content. -/
abbrev FS := List (List Char × String)

def fsLookup (fs : FS) (p : List Char) : Option String :=
  match fs with
  | [] => none
  | (q, d) :: rest => if q = p then some d else fsLookup rest p

/-- Writing a file: replace the entry if present, append otherwise. -/
def fsWrite : FS → List Char → String → FS
  | [], p, c => [(p, c)]
  | (q, d) :: rest, p, c => if q = p then (p, c) :: rest else (q, d) :: fsWrite rest p c

/-! ## File tools from `functions.py` -/

/-- Constant `MAX_CHARS` from `functions.py`. -/
def maxChars : Nat := 100000

/-- Model of `get_file_content(working_directory, file_path)` from `functions.py`:
sandbox check by raw string prefix on `abspath`, existence check, read the
first `MAX_CHARS` characters, append the truncation marker when exactly
`MAX_CHARS` characters came back. -/
def getFileContent (cwd : List Char) (fs : FS) (wd fp : String) : String :=
  let absPath := osAbspath cwd (osJoin wd.data fp.data)
  if ¬ ((osAbspath cwd wd.data).isPrefixOf absPath) then
    "Error: Cannot access \"" ++ fp ++ "\" as it is outside the permitted working directory"
  else
    match fsLookup fs absPath with
    | none => "Error: File \"" ++ fp ++ "\" does not exist"
    | some content =>
      let taken := content.data.take maxChars
      if taken.length = maxChars then
        String.mk taken ++ "\n[...File \"" ++ fp ++ "\" truncated at "
          ++ toString maxChars ++ " characters]"
      else
        String.mk taken

/-- Model of `overwrite_file(working_directory, file_path, content)` from
`functions.py` (`os.makedirs` is a no-op in the flat-filesystem model). -/
def overwriteFile (cwd : List Char) (fs : FS) (wd fp content : String) : FS × String :=
  let absPath := osAbspath cwd (osJoin wd.data fp.data)
  if ¬ ((osAbspath cwd wd.data).isPrefixOf absPath) then
    (fs, "Error: Cannot write to \"" ++ fp ++ "\" as it is outside the permitted working directory")
  else
    (fsWrite fs absPath content, "Successfully wrote to \"" ++ fp ++ "\"")

/-! ## Python `str.replace` (replace every occurrence, left to right) -/

/-- Replace every occurrence of the nonempty pattern `o` by `n`, scanning
left to right without overlap — the algorithm of Python's `str.replace`.
`fuel` is a structural bound on the number of scan steps; each step consumes
at least one character, so `fuel = s.length` at the top call suffices and
the fuel-exhaustion branch is unreachable. -/
def pyReplaceAux (o n : List Char) : Nat → List Char → List Char
  | 0, s => s
  | fuel + 1, s =>
    match s with
    | [] => []
    | c :: rest =>
      if o.isPrefixOf s then
        n ++ pyReplaceAux o n fuel (rest.drop (o.length - 1))
      else
        c :: pyReplaceAux o n fuel rest

/-- Python `s.replace(o, n)`: the empty pattern inserts `n` at every gap,
including both ends. -/
def pyReplace (s o n : List Char) : List Char :=
  if o = [] then n ++ s.foldr (fun c acc => c :: (n ++ acc)) []
  else pyReplaceAux o n s.length s

def pyReplaceStr (s o n : String) : String :=
  String.mk (pyReplace s.data o.data n.data)

/-! ## `replace_str_file` from `functions.py`

`difflib.unified_diff` is an external collaborator; it is passed in as `udiff`,
returning the list of diff lines for the given before/after contents.  The
Python code returns `''.join(diff)` when the diff *list* is nonempty and a
fallback success message otherwise. -/

/-- Python's substring test `sub in s`. -/
def containsSub (s sub : List Char) : Bool :=
  match s with
  | [] => sub.isEmpty
  | _ :: rest => sub.isPrefixOf s || containsSub rest sub

def replaceStrFile (udiff : String → String → List String) (cwd : List Char)
    (fs : FS) (wd fp old new : String) : FS × String :=
  let absPath := osAbspath cwd (osJoin wd.data fp.data)
  if ¬ ((osAbspath cwd wd.data).isPrefixOf absPath) then
    (fs, "Error: Cannot access \"" ++ fp ++ "\" as it is outside the permitted working directory")
  else
    match fsLookup fs absPath with
    | none => (fs, "Error: File \"" ++ fp ++ "\" does not exist")
    | some original =>
      if ¬ (containsSub original.data old.data) then
        (fs, "String \"" ++ old ++ "\" not found in file \"" ++ fp ++ "\"")
      else
        let newContent := pyReplaceStr original old new
        let diffLines := udiff original newContent
        (fsWrite fs absPath newContent,
          if diffLines = [] then
            "Successfully replaced \"" ++ old ++ "\" with \"" ++ new ++ "\" in " ++ fp
          else
            String.join diffLines)

/-! ## `list_files` from `functions.py` -/

/-- An entry of `os.listdir target` in the flat filesystem: a file key strictly
below `target` contributes its first remaining component, flagged as a
directory when the key goes deeper. -/
def childInfo (target key : List Char) : Option (List Char × Bool) :=
  if (target ++ ['/']).isPrefixOf key then
    let rest := key.drop (target.length + 1)
    let name := rest.takeWhile (fun c => c ≠ '/')
    some (name, name.length < rest.length)
  else
    none

/-- The listing of `target`: first-seen order over the filesystem entries,
each name reported once. -/
def dirEntries (fs : FS) (target : List Char) : List (List Char × Bool) :=
  fs.foldl
    (fun acc e =>
      match childInfo target e.1 with
      | some (name, d) => if acc.any (fun x => x.1 = name) then acc else acc ++ [(name, d)]
      | none => acc)
    []

def renderEntries (entries : List (List Char × Bool)) : String :=
  String.intercalate "\n"
    (entries.map (fun e => "- " ++ String.mk e.1 ++ " " ++ (if e.2 then "(dir)" else "")))

/-- Model of `list_files(working_directory, directory=None)` from `functions.py`.  The
sandbox check only runs when `directory` is truthy (absent and `""` both fall
back to the working directory).  Listing a path that exists as a regular file
raises `NotADirectoryError` in Python, which `handle_errors` renders as an
`Error:` string. -/
def listFiles (cwd : List Char) (fs : FS) (wd : String) (directory : Option String) : String :=
  let d := directory.getD ""
  let dirTruthy := d ≠ ""
  let targetDir :=
    if dirTruthy then osAbspath cwd (osJoin wd.data d.data) else osAbspath cwd wd.data
  if dirTruthy ∧ ¬ ((osAbspath cwd wd.data).isPrefixOf targetDir) then
    "Error: Cannot access \"" ++ d ++ "\" as it is outside the permitted working directory"
  else if (fsLookup fs targetDir).isNone ∧ dirEntries fs targetDir = [] then
    "Error: Directory \"" ++ (if dirTruthy then d else ".") ++ "\" does not exist"
  else if (fsLookup fs targetDir).isSome then
    "Error: [Errno 20] Not a directory: \x27" ++ String.mk targetDir ++ "\x27"
  else
    renderEntries (dirEntries fs targetDir)

/-! ## Todo store

The JSON document `todos.json` is modelled at the level of its parsed value:
a list of objects.  `functions.py` only ever writes `task` and `done`, but
`json.dump` preserves any `created`/`completed` fields already present in a
loaded item, so every item carries the optional fields. -/

structure TodoItem where
  task : String
  done : Bool
  created : Option String
  completed : Option String
deriving DecidableEq, Repr

/-- Model of `todo_add(working_directory, task)` from `functions.py`: the store is
`none` when `todos.json` does not exist. -/
def todoAdd (todos : Option (List TodoItem)) (task : String) :
    Option (List TodoItem) × String :=
  let ts := todos.getD []
  (some (ts ++ [⟨task, false, none, none⟩]), "✅ Added: " ++ task)

/-- Model of `todo_list(working_directory)` from `functions.py`. -/
def todoList (todos : Option (List TodoItem)) : String :=
  match todos with
  | none => "📝 No todos found!"
  | some [] => "📝 No todos found!"
  | some ts =>
    String.intercalate "\n"
      ("📋 Your todos:" ::
        (ts.enum.map (fun e =>
          let i := e.1 + 1
          if e.2.done then
            "  " ++ toString i ++ ". ✓ ~~" ++ e.2.task ++ "~~"
          else
            "  " ++ toString i ++ ". ○ " ++ e.2.task)))

/-- Model of `todo_done(working_directory, index)` from `functions.py`: `index` is the
1-based position; the valid branch sets `done = true` on that item and
rewrites the store, reading the task text back from the mutated list. -/
def todoDone (todos : Option (List TodoItem)) (index : Int) :
    Option (List TodoItem) × String :=
  match todos with
  | none => (none, "❌ No todos found!")
  | some ts =>
    if ts.isEmpty then (some ts, "❌ No todos found!")
    else if 1 ≤ index ∧ index ≤ ts.length then
      let k := (index - 1).toNat
      match ts[k]? with
      | some t =>
        let ts2 := ts.set k { t with done := true }
        (some ts2, "🎉 Completed: " ++ t.task)
      | none => (some ts, "❌ Invalid todo number")
    else
      (some ts, "❌ Invalid todo number")

/-- Model of `TodoTools.mark_todo_done(index)` from
`coding_agent_and_todos_llm/main.py`; `now` is the call-time timestamp
(`datetime.now().isoformat()`).  An already-done item returns early without
persisting. -/
def markTodoDone (todos : List TodoItem) (index : Int) (now : String) :
    List TodoItem × String :=
  if todos = [] then
    (todos, "Error: No todos found")
  else if index < 1 ∨ index > todos.length then
    (todos, "Error: Invalid index " ++ toString index ++ ". Valid range: 1-"
      ++ toString todos.length)
  else
    let k := (index - 1).toNat
    match todos[k]? with
    | some t =>
      if t.done then
        (todos, "Todo \x27" ++ t.task ++ "\x27 is already marked as done")
      else
        (todos.set k { t with done := true, completed := some now },
          "✅ Marked as done: \x27" ++ t.task ++ "\x27")
    | none => (todos, "")

/-! ## Tool dispatch (`call_function.py`)

`call_function` injects `working_directory = 'todo'` into the argument
mapping and calls the handler; every handler is wrapped by `handle_errors`,
which turns a raised exception into an `"Error: ..."` string.  Argument
values coming from the model are strings or integers. -/

inductive PyVal where
  | str (s : String)
  | int (n : Int)
deriving DecidableEq, Repr

abbrev Args := List (String × PyVal)

structure PyExc where
  msg : String
deriving DecidableEq, Repr

/-- Mutable world the handlers act on: the flat filesystem plus the parsed
todo store (`none` while `todos.json` does not exist). -/
structure World where
  files : FS
  todos : Option (List TodoItem)
deriving DecidableEq, Repr

/-- The injected `working_directory` value from `call_function.py`. -/
def workingDirectory : String := "todo"

/-- Keyword-argument binding: an argument name outside the handler's
parameter list raises `TypeError` before the handler body runs. -/
def argKeysOk (args : Args) (allowed : List String) : Bool :=
  args.all (fun a => a.1 ∈ allowed)

def getStrArg (args : Args) (k : String) : Option PyVal :=
  args.lookup k

/-- Handler body of `list_files` (exception messages approximate CPython). -/
def rawListFiles (cwd : List Char) (w : World) (args : Args) :
    Except PyExc (World × String) :=
  if ¬ argKeysOk args ["directory"] then
    .error ⟨"list_files() got an unexpected keyword argument"⟩
  else
    match args.lookup "directory" with
    | none => .ok (w, listFiles cwd w.files workingDirectory none)
    | some (.str d) => .ok (w, listFiles cwd w.files workingDirectory (some d))
    | some (.int _) => .error ⟨"unsupported operand type for path join"⟩

def rawGetFileContent (cwd : List Char) (w : World) (args : Args) :
    Except PyExc (World × String) :=
  if ¬ argKeysOk args ["file_path"] then
    .error ⟨"get_file_content() got an unexpected keyword argument"⟩
  else
    match args.lookup "file_path" with
    | some (.str fp) => .ok (w, getFileContent cwd w.files workingDirectory fp)
    | some (.int _) => .error ⟨"join() argument must be str, not int"⟩
    | none =>
      .error ⟨"get_file_content() missing 1 required positional argument: \x27file_path\x27"⟩

def rawOverwriteFile (cwd : List Char) (w : World) (args : Args) :
    Except PyExc (World × String) :=
  if ¬ argKeysOk args ["file_path", "content"] then
    .error ⟨"overwrite_file() got an unexpected keyword argument"⟩
  else
    match args.lookup "file_path", args.lookup "content" with
    | some (.str fp), some (.str content) =>
      let r := overwriteFile cwd w.files workingDirectory fp content
      .ok ({ w with files := r.1 }, r.2)
    | some (.int _), _ => .error ⟨"join() argument must be str, not int"⟩
    | _, _ =>
      .error ⟨"overwrite_file() missing required positional arguments"⟩

def rawReplaceStrFile (udiff : String → String → List String) (cwd : List Char)
    (w : World) (args : Args) : Except PyExc (World × String) :=
  if ¬ argKeysOk args ["file_path", "old_str", "new_str"] then
    .error ⟨"replace_str_file() got an unexpected keyword argument"⟩
  else
    match args.lookup "file_path", args.lookup "old_str", args.lookup "new_str" with
    | some (.str fp), some (.str o), some (.str n) =>
      let r := replaceStrFile udiff cwd w.files workingDirectory fp o n
      .ok ({ w with files := r.1 }, r.2)
    | some (.int _), _, _ => .error ⟨"join() argument must be str, not int"⟩
    | _, _, _ =>
      .error ⟨"replace_str_file() missing required positional arguments"⟩

def rawTodoAdd (w : World) (args : Args) : Except PyExc (World × String) :=
  if ¬ argKeysOk args ["task"] then
    .error ⟨"todo_add() got an unexpected keyword argument"⟩
  else
    match args.lookup "task" with
    | some (.str task) =>
      let r := todoAdd w.todos task
      .ok ({ w with todos := r.1 }, r.2)
    | some (.int _) => .error ⟨"unsupported task type"⟩
    | none => .error ⟨"todo_add() missing 1 required positional argument: \x27task\x27"⟩

def rawTodoList (w : World) (args : Args) : Except PyExc (World × String) :=
  if ¬ argKeysOk args [] then
    .error ⟨"todo_list() got an unexpected keyword argument"⟩
  else
    .ok (w, todoList w.todos)

def rawTodoDone (w : World) (args : Args) : Except PyExc (World × String) :=
  if ¬ argKeysOk args ["index"] then
    .error ⟨"todo_done() got an unexpected keyword argument"⟩
  else
    match args.lookup "index" with
    | some (.int i) =>
      let r := todoDone w.todos i
      .ok ({ w with todos := r.1 }, r.2)
    | some (.str _) =>
      .error ⟨"\x27<=\x27 not supported between instances of \x27int\x27 and \x27str\x27"⟩
    | none => .error ⟨"todo_done() missing 1 required positional argument: \x27index\x27"⟩

/-- The registered names of `function_map` in `call_function.py`. -/
def functionMap : List String :=
  ["list_files", "get_file_content", "overwrite_file", "replace_str_file",
    "todo_add", "todo_list", "todo_done"]

/-- Look up and run the registered handler body (callers check membership in
`functionMap` first, so the catch-all branch is unreachable). -/
def dispatchRaw (udiff : String → String → List String) (cwd : List Char)
    (w : World) (name : String) (args : Args) : Except PyExc (World × String) :=
  if name = "list_files" then rawListFiles cwd w args
  else if name = "get_file_content" then rawGetFileContent cwd w args
  else if name = "overwrite_file" then rawOverwriteFile cwd w args
  else if name = "replace_str_file" then rawReplaceStrFile udiff cwd w args
  else if name = "todo_add" then rawTodoAdd w args
  else if name = "todo_list" then rawTodoList w args
  else if name = "todo_done" then rawTodoDone w args
  else .ok (w, "")

/-- The `handle_errors` decorator from `functions.py`: a raised exception
becomes the string `f"Error: {e}"`.  All modelled raises happen before any
mutation, so the pre-call world is returned. -/
def handleErrors (w : World) (r : Except PyExc (World × String)) : World × String :=
  match r with
  | .ok res => res
  | .error e => (w, "Error: " ++ e.msg)

/-! ## Conversation messages and `call_function` -/

inductive MsgPart where
  | text (s : String)
  | functionResponse (name : String) (response : List (String × String))
deriving DecidableEq, Repr

structure Content where
  role : String
  parts : List MsgPart
deriving DecidableEq, Repr

structure FunctionCallPart where
  name : String
  args : Args
deriving DecidableEq, Repr

/-- Drop a caller-supplied `working_directory` entry: `call_function`
overwrites it with the fixed injected value. -/
def stripWd (args : Args) : Args :=
  args.filter (fun a => ¬ (a.1 = "working_directory"))

/-- Model of `call_function(function_call_part)` from `call_function.py`: unknown
names yield an error response without touching any handler; otherwise the
handler runs under `handle_errors` and its string result is wrapped as a
function response.  The returned `Content` carries role `"tool"`. -/
def callFunction (udiff : String → String → List String) (cwd : List Char)
    (w : World) (fc : FunctionCallPart) : World × Content :=
  if fc.name ∉ functionMap then
    (w, ⟨"tool", [.functionResponse fc.name [("error", "Unknown function: " ++ fc.name)]]⟩)
  else
    let r := handleErrors w (dispatchRaw udiff cwd w fc.name (stripWd fc.args))
    (r.1, ⟨"tool", [.functionResponse fc.name [("result", r.2)]]⟩)

/-! ## The agent loop (`generate_content` in `main.py`) -/

/-- A model response as the loop consumes it: the candidate contents appended
to the conversation, the requested function calls (`response.function_calls`,
empty when falsy), and `response.text`. -/
structure ModelResponse where
  candidates : List Content
  functionCalls : List FunctionCallPart
  text : String

/-- Observable outcome of a run: final conversation, number of model calls,
the printed final text (`none` when the loop ran out of iterations), and
whether `"Maximum iterations reached."` was printed. -/
structure RunResult where
  world : World
  messages : List Content
  rounds : Nat
  finalText : Option String
  capReported : Bool

/-- Constant `max_iterations` from `main.py`. -/
def maxIterations : Nat := 20

/-- Model of `function_call_result.parts[0]` — `call_function` always returns exactly
one part, so the default is never used. -/
def firstPart (c : Content) : MsgPart :=
  c.parts.headD (.text "")

/-- The `for iteration in range(max_iterations)` loop of `generate_content`:
`fuel` counts the iterations still allowed (`maxIterations - i`) and `i` is
Python's `iteration` variable.  Mirrors the Python control flow: append every
candidate content; if there are no function calls, print the final text and
break; otherwise collect one `parts[0]` per call (in order) and append each
as a `role="user"` message.  After the loop, Python tests the leaked loop
variable: `iteration == max_iterations - 1`, which holds both when the
iterations were exhausted and when the final text arrived on the last
iteration.  The function is total: no branch raises. -/
def agentLoopGo (udiff : String → String → List String) (cwd : List Char)
    (client : List Content → ModelResponse) :
    Nat → World → List Content → Nat → RunResult
  | 0, w, messages, i => ⟨w, messages, i, none, i - 1 == maxIterations - 1⟩
  | fuel + 1, w, messages, i =>
    let response := client messages
    let messages1 := response.candidates.foldl (fun ms c => ms ++ [c]) messages
    if response.functionCalls.isEmpty then
      ⟨w, messages1, i + 1, some response.text, i == maxIterations - 1⟩
    else
      let st := response.functionCalls.foldl
        (fun (st : World × List MsgPart) fc =>
          let r := callFunction udiff cwd st.1 fc
          (r.1, st.2 ++ [firstPart r.2]))
        (w, [])
      let messages2 := st.2.foldl
        (fun ms p => ms ++ [Content.mk "user" [p]]) messages1
      agentLoopGo udiff cwd client fuel st.1 messages2 (i + 1)

/-- Model of `generate_content(client, messages)`: run the loop from iteration 0 with
all `max_iterations` iterations available. -/
def generateContent (udiff : String → String → List String) (cwd : List Char)
    (client : List Content → ModelResponse) (w : World)
    (messages : List Content) : RunResult :=
  agentLoopGo udiff cwd client maxIterations w messages 0

/-- Sequential dispatch of a round's function calls, threading the world and
collecting the single response part of each call in order. -/
def dispatchAll (udiff : String → String → List String) (cwd : List Char) :
    World → List FunctionCallPart → World × List MsgPart
  | w, [] => (w, [])
  | w, fc :: rest =>
    let r := callFunction udiff cwd w fc
    let tailRes := dispatchAll udiff cwd r.1 rest
    (tailRes.1, firstPart r.2 :: tailRes.2)

/-! ## Concrete fixtures used by counterexamples and witnesses -/

/-- A model stub that keeps requesting one tool call per round until the
conversation has grown through 19 tool rounds (length `1 + 2·19 = 39`) and
then answers without tool calls, so the final text arrives exactly on the
20th round. -/
def lastRoundClient : List Content → ModelResponse := fun ms =>
  if ms.length < 39 then ⟨[⟨"model", [.text "t"]⟩], [⟨"foo", []⟩], ""⟩
  else ⟨[⟨"model", [.text "t"]⟩], [], "fin"⟩

/-- A model stub issuing one unknown-name tool call in the first round, then
a final answer. -/
def oneCallClient : List Content → ModelResponse := fun ms =>
  if ms.length ≤ 1 then ⟨[⟨"model", [.text "a"]⟩], [⟨"foo", []⟩], ""⟩
  else ⟨[⟨"model", [.text "b"]⟩], [], "done"⟩

/-- A file content of length exactly `MAX_CHARS`. -/
def bigContent : String := String.mk (List.replicate maxChars 'a')

/-! ## Helper lemmas -/

theorem string_eq_empty_of_length (s : String) (h : s.length = 0) : s = "" := by
  cases s with
  | mk d =>
    cases d with
    | nil => rfl
    | cons c cs => simp [String.length] at h

theorem strAppend_ne_empty (s t : String) (hs : s ≠ "") : s ++ t ≠ "" := by
  intro hc
  apply hs
  have h1 : (s ++ t).length = 0 := by rw [hc]; rfl
  rw [String.length_append] at h1
  exact string_eq_empty_of_length s (by omega)

theorem fsWrite_lookup : ∀ (fs : FS) (p : List Char) (c : String),
    fsLookup (fsWrite fs p c) p = some c := by
  intro fs
  induction fs with
  | nil => intro p c; simp [fsWrite, fsLookup]
  | cons e rest ih =>
    intro p c
    by_cases h : e.1 = p
    · simp [fsWrite, fsLookup, h]
    · simp [fsWrite, fsLookup, h, ih]

theorem set_of_getElem? {α : Type} : ∀ (l : List α) (k : Nat) (a : α),
    l[k]? = some a → l.set k a = l := by
  intro l
  induction l with
  | nil => intro k a h; simp at h
  | cons x xs ih =>
    intro k a h
    cases k with
    | zero => simp at h; simp [h]
    | succ m => simp at h; simp [List.set, ih m a h]

theorem foldl_append_singleton {α β : Type} (f : α → β) :
    ∀ (l : List α) (acc : List β),
      l.foldl (fun ms x => ms ++ [f x]) acc = acc ++ l.map f := by
  intro l
  induction l with
  | nil => intro acc; simp
  | cons x xs ih => intro acc; simp [ih]

theorem foldl_append_elems {α : Type} :
    ∀ (l acc : List α), l.foldl (fun ms x => ms ++ [x]) acc = acc ++ l := by
  intro l
  induction l with
  | nil => intro acc; simp
  | cons x xs ih => intro acc; simp [ih]

theorem dispatch_foldl_eq (udiff : String → String → List String) (cwd : List Char) :
    ∀ (calls : List FunctionCallPart) (w : World) (acc : List MsgPart),
      calls.foldl
          (fun (st : World × List MsgPart) fc =>
            let r := callFunction udiff cwd st.1 fc
            (r.1, st.2 ++ [firstPart r.2]))
          (w, acc)
        = ((dispatchAll udiff cwd w calls).1, acc ++ (dispatchAll udiff cwd w calls).2) := by
  intro calls
  induction calls with
  | nil => intro w acc; simp [dispatchAll]
  | cons fc rest ih => intro w acc; simp [dispatchAll, ih]

theorem dispatchAll_length (udiff : String → String → List String) (cwd : List Char) :
    ∀ (calls : List FunctionCallPart) (w : World),
      (dispatchAll udiff cwd w calls).2.length = calls.length := by
  intro calls
  induction calls with
  | nil => intro w; simp [dispatchAll]
  | cons fc rest ih => intro w; simp [dispatchAll, ih]

theorem agentLoop_always_calls (udiff : String → String → List String)
    (cwd : List Char) (client : List Content → ModelResponse)
    (hc : ∀ m, (client m).functionCalls ≠ []) :
    ∀ (fuel i : Nat) (w : World) (ms : List Content), i + fuel = maxIterations →
      (agentLoopGo udiff cwd client fuel w ms i).rounds = maxIterations ∧
      (agentLoopGo udiff cwd client fuel w ms i).finalText = none ∧
      (agentLoopGo udiff cwd client fuel w ms i).capReported = true := by
  intro fuel
  induction fuel with
  | zero =>
    intro i w ms hi
    rw [agentLoopGo]
    have hr : i = maxIterations := by omega
    refine ⟨hr, rfl, ?_⟩
    have h1 : i - 1 = maxIterations - 1 := by omega
    simp [h1]
  | succ k ih =>
    intro i w ms hi
    have hne : ¬ (client ms).functionCalls.isEmpty = true := by
      cases hcalls : (client ms).functionCalls with
      | nil => exact absurd hcalls (hc ms)
      | cons a l => simp [hcalls]
    rw [agentLoopGo]
    simp only [hne, if_false, Bool.false_eq_true]
    exact ih (i + 1) _ _ (by omega)

theorem agentLoop_cap_iff (udiff : String → String → List String)
    (cwd : List Char) (client : List Content → ModelResponse) :
    ∀ (fuel i : Nat) (w : World) (ms : List Content), i + fuel = maxIterations →
      ((agentLoopGo udiff cwd client fuel w ms i).capReported = true ↔
        (agentLoopGo udiff cwd client fuel w ms i).rounds = maxIterations) := by
  intro fuel
  induction fuel with
  | zero =>
    intro i w ms hi
    rw [agentLoopGo]
    constructor
    · intro _
      exact (show i = maxIterations by omega)
    · intro _
      have h1 : i - 1 = maxIterations - 1 := by omega
      simp [h1]
  | succ k ih =>
    intro i w ms hi
    rw [agentLoopGo]
    by_cases hcalls : (client ms).functionCalls.isEmpty = true
    · simp only [hcalls, if_true]
      constructor
      · intro hcap
        have h2 : i = maxIterations - 1 := by
          simpa using hcap
        simp only [maxIterations] at h2 ⊢
        omega
      · intro hr
        have h2 : i = maxIterations - 1 := by
          simp only [maxIterations] at hr ⊢
          omega
        simp [h2]
    · simp only [hcalls, if_false]
      exact ih (i + 1) _ _ (by omega)

/-! ## Claim theorems -/

/-- C1 (code bug evaluation): with process directory `/s` and sandbox root
`todo`, the input `../todo-evil/secret.txt` resolves to
`/s/todo-evil/secret.txt`, which is *not* a descendant of `/s/todo` — yet
`get_file_content` accepts it (the raw `startswith` prefix check sees
`/s/todo` as a string prefix of `/s/todo-evil/...`) and returns the content
of the out-of-sandbox file instead of the out-of-bounds error the claim
requires. -/
theorem sandbox_escape_read :
    getFileContent "/s".data [("/s/todo-evil/secret.txt".data, "TOP")] "todo"
        "../todo-evil/secret.txt" = "TOP" ∧
    isDescendant (osAbspath "/s".data (osJoin "todo".data "../todo-evil/secret.txt".data))
        (osAbspath "/s".data "todo".data) = false := by
  constructor
  · decide
  · decide

/-- C2: a model stub that never requests tool calls makes the loop stop as
Done after exactly one round, emitting the model's final text; a stub that
always requests at least one tool call makes the loop stop as Capped after
exactly `max_iterations = 20` rounds, with no final text.  The loop function
is total, so neither run raises. -/
theorem loop_termination :
    (∀ (udiff : String → String → List String) (cwd : List Char)
        (client : List Content → ModelResponse) (w : World) (ms : List Content),
      (∀ m, (client m).functionCalls = []) →
        (generateContent udiff cwd client w ms).rounds = 1 ∧
        (generateContent udiff cwd client w ms).finalText = some (client ms).text ∧
        (generateContent udiff cwd client w ms).capReported = false) ∧
    (∀ (udiff : String → String → List String) (cwd : List Char)
        (client : List Content → ModelResponse) (w : World) (ms : List Content),
      (∀ m, (client m).functionCalls ≠ []) →
        (generateContent udiff cwd client w ms).rounds = maxIterations ∧
        (generateContent udiff cwd client w ms).finalText = none ∧
        (generateContent udiff cwd client w ms).capReported = true) := by
  constructor
  · intro udiff cwd client w ms hc
    have hz : (client ms).functionCalls.isEmpty = true := by
      simp [hc ms]
    rw [generateContent, show maxIterations = 19 + 1 from rfl, agentLoopGo]
    simp [hz, maxIterations]
  · intro udiff cwd client w ms hc
    exact agentLoop_always_calls udiff cwd client hc maxIterations 0 w ms (by decide)

/-- C2 witness: concrete stubs exercising both halves. -/
theorem loop_termination_instance :
    (generateContent (fun _ _ => []) "/s".data (fun _ => ⟨[], [], "done"⟩)
        ⟨[], none⟩ []).rounds = 1 ∧
    (generateContent (fun _ _ => []) "/s".data (fun _ => ⟨[], [], "done"⟩)
        ⟨[], none⟩ []).finalText = some "done" ∧
    (generateContent (fun _ _ => []) "/s".data (fun _ => ⟨[], [⟨"foo", []⟩], ""⟩)
        ⟨[], none⟩ []).rounds = maxIterations ∧
    (generateContent (fun _ _ => []) "/s".data (fun _ => ⟨[], [⟨"foo", []⟩], ""⟩)
        ⟨[], none⟩ []).finalText = none := by
  have h1 := loop_termination.1 (fun _ _ => []) "/s".data (fun _ => ⟨[], [], "done"⟩)
    ⟨[], none⟩ [] (fun _ => rfl)
  have h2 := loop_termination.2 (fun _ _ => []) "/s".data (fun _ => ⟨[], [⟨"foo", []⟩], ""⟩)
    ⟨[], none⟩ [] (fun _ => by simp)
  exact ⟨h1.1, h1.2.1, h2.1, h2.2.1⟩

/-- C5 counterexample: a run whose final answer arrives on the 20th round
emits the final text (Done) *and* reports that the cap was reached — the
leaked loop variable satisfies `iteration == max_iterations - 1` after the
`break`, so `"Maximum iterations reached."` is printed after the final
response, refuting mutual exclusivity as claimed. -/
theorem cap_report_with_final_text :
    (generateContent (fun _ _ => []) "/s".data lastRoundClient ⟨[], none⟩
        [⟨"user", [.text "hi"]⟩]).finalText = some "fin" ∧
    (generateContent (fun _ _ => []) "/s".data lastRoundClient ⟨[], none⟩
        [⟨"user", [.text "hi"]⟩]).capReported = true := by
  constructor
  · decide
  · decide

/-- C5 (amended): the cap-reached report is emitted exactly when the final
executed round is the 20th — that is, either all 20 rounds pass without a
final answer, or the final answer arrives on round 20 itself.  Done on
rounds 1–19 does not report the cap. -/
theorem cap_report_iff_all_rounds (udiff : String → String → List String)
    (cwd : List Char) (client : List Content → ModelResponse) (w : World)
    (ms : List Content) :
    (generateContent udiff cwd client w ms).capReported = true ↔
      (generateContent udiff cwd client w ms).rounds = maxIterations :=
  agentLoop_cap_iff udiff cwd client maxIterations 0 w ms (by decide)

/-- C5 witness: the amended equivalence at the `lastRoundClient` run. -/
theorem cap_report_iff_all_rounds_instance :
    (generateContent (fun _ _ => []) "/s".data lastRoundClient ⟨[], none⟩
        [⟨"user", [.text "hi"]⟩]).capReported = true ↔
      (generateContent (fun _ _ => []) "/s".data lastRoundClient ⟨[], none⟩
        [⟨"user", [.text "hi"]⟩]).rounds = maxIterations :=
  cap_report_iff_all_rounds (fun _ _ => []) "/s".data lastRoundClient ⟨[], none⟩
    [⟨"user", [.text "hi"]⟩]

/-- C3 counterexample: in the run driven by `oneCallClient` the single tool
result is appended to the conversation as a message with role `"user"`, not
`"tool"` — `generate_content` extracts `parts[0]` from `call_function`'s
role-`"tool"` `Content` and rewraps it in `types.Content(role="user", ...)`,
so no tool-role message ever reaches the conversation. -/
theorem tool_role_counterexample :
    (generateContent (fun _ _ => []) "/s".data oneCallClient ⟨[], none⟩
        [⟨"user", [.text "hi"]⟩]).messages =
      [⟨"user", [.text "hi"]⟩, ⟨"model", [.text "a"]⟩,
        ⟨"user", [.functionResponse "foo" [("error", "Unknown function: foo")]]⟩,
        ⟨"model", [.text "b"]⟩] ∧
    ("user" : String) ≠ "tool" := by
  constructor
  · decide
  · decide

/-- C3 (amended): in every round that dispatches tool calls, the loop appends
one `role="user"` message per tool result — wrapping the single part of each
`call_function` response — in exactly the order the model produced the calls
(the world is threaded through them sequentially), and the number of
appended tool-result messages equals the number of requested calls. -/
theorem tool_messages_round (udiff : String → String → List String)
    (cwd : List Char) (client : List Content → ModelResponse) (fuel : Nat)
    (w : World) (ms : List Content) (i : Nat)
    (hc : (client ms).functionCalls ≠ []) :
    agentLoopGo udiff cwd client (fuel + 1) w ms i =
      agentLoopGo udiff cwd client fuel
        (dispatchAll udiff cwd w (client ms).functionCalls).1
        (ms ++ (client ms).candidates
          ++ ((dispatchAll udiff cwd w (client ms).functionCalls).2.map
              (fun p => Content.mk "user" [p])))
        (i + 1) ∧
    (dispatchAll udiff cwd w (client ms).functionCalls).2.length
      = (client ms).functionCalls.length := by
  refine ⟨?_, dispatchAll_length udiff cwd _ w⟩
  have hne : (client ms).functionCalls.isEmpty = false := by
    cases hcalls : (client ms).functionCalls with
    | nil => exact absurd hcalls hc
    | cons a l => simp [hcalls]
  rw [agentLoopGo]
  simp only [hne, Bool.false_eq_true, if_false, dispatch_foldl_eq udiff cwd,
    foldl_append_elems, foldl_append_singleton, List.nil_append,
    List.append_assoc]

/-- C3 witness: the amended round equation at the concrete
`oneCallClient` run. -/
theorem tool_messages_round_instance :
    agentLoopGo (fun _ _ => []) "/s".data oneCallClient (19 + 1) ⟨[], none⟩
        [⟨"user", [.text "hi"]⟩] 0 =
      agentLoopGo (fun _ _ => []) "/s".data oneCallClient 19
        (dispatchAll (fun _ _ => []) "/s".data ⟨[], none⟩
          (oneCallClient [⟨"user", [.text "hi"]⟩]).functionCalls).1
        ([⟨"user", [.text "hi"]⟩] ++ (oneCallClient [⟨"user", [.text "hi"]⟩]).candidates
          ++ ((dispatchAll (fun _ _ => []) "/s".data ⟨[], none⟩
                (oneCallClient [⟨"user", [.text "hi"]⟩]).functionCalls).2.map
              (fun p => Content.mk "user" [p])))
        (0 + 1) ∧
    (dispatchAll (fun _ _ => []) "/s".data ⟨[], none⟩
        (oneCallClient [⟨"user", [.text "hi"]⟩]).functionCalls).2.length
      = (oneCallClient [⟨"user", [.text "hi"]⟩]).functionCalls.length :=
  tool_messages_round (fun _ _ => []) "/s".data oneCallClient 19 ⟨[], none⟩
    [⟨"user", [.text "hi"]⟩] 0 (by decide)

/-- C9: the dispatch boundary is total.  `call_function` always returns a
role-`"tool"` `Content` with exactly one part; an unregistered name yields
the `Unknown function` error response without running any handler (the world
is untouched); for a registered name, a handler that raises has its
exception caught and converted to an `"Error: ..."` result string with the
pre-call world restored, and a handler that returns normally has its string
result wrapped unchanged. -/
theorem dispatch_contract (udiff : String → String → List String)
    (cwd : List Char) (w : World) (fc : FunctionCallPart) :
    (callFunction udiff cwd w fc).2.role = "tool" ∧
    (callFunction udiff cwd w fc).2.parts.length = 1 ∧
    (fc.name ∉ functionMap →
      callFunction udiff cwd w fc =
        (w, ⟨"tool", [.functionResponse fc.name
              [("error", "Unknown function: " ++ fc.name)]]⟩)) ∧
    (∀ e, fc.name ∈ functionMap →
      dispatchRaw udiff cwd w fc.name (stripWd fc.args) = .error e →
      callFunction udiff cwd w fc =
        (w, ⟨"tool", [.functionResponse fc.name
              [("result", "Error: " ++ e.msg)]]⟩)) ∧
    (∀ (w2 : World) (s : String), fc.name ∈ functionMap →
      dispatchRaw udiff cwd w fc.name (stripWd fc.args) = .ok (w2, s) →
      callFunction udiff cwd w fc =
        (w2, ⟨"tool", [.functionResponse fc.name [("result", s)]]⟩)) := by
  refine ⟨?_, ?_, ?_, ?_, ?_⟩
  · by_cases h : fc.name ∈ functionMap <;> simp [callFunction, h]
  · by_cases h : fc.name ∈ functionMap <;> simp [callFunction, h]
  · intro h; simp [callFunction, h]
  · intro e hmem hraw
    simp [callFunction, hmem, handleErrors, hraw]
  · intro w2 s hmem hraw
    simp [callFunction, hmem, handleErrors, hraw]

/-- C9 witness: calling the registered `get_file_content` with its required
argument missing raises `TypeError` inside the handler, which the boundary
converts to an `Error:` result. -/
theorem dispatch_contract_instance :
    callFunction (fun _ _ => []) "/s".data ⟨[], none⟩ ⟨"get_file_content", []⟩ =
      (⟨[], none⟩, ⟨"tool", [.functionResponse "get_file_content"
        [("result", "Error: " ++
          "get_file_content() missing 1 required positional argument: \x27file_path\x27")]]⟩) :=
  (dispatch_contract (fun _ _ => []) "/s".data ⟨[], none⟩
      ⟨"get_file_content", []⟩).2.2.2.1
    ⟨"get_file_content() missing 1 required positional argument: \x27file_path\x27"⟩
    (by decide) rfl

/-- Reading a file that exists in the sandbox reduces to the
truncation-marker branch test on its content. -/
theorem getFileContent_found (cwd : List Char) (fs : FS) (wd fp C : String)
    (hsb : (osAbspath cwd wd.data).isPrefixOf
      (osAbspath cwd (osJoin wd.data fp.data)) = true)
    (hlook : fsLookup fs (osAbspath cwd (osJoin wd.data fp.data)) = some C) :
    getFileContent cwd fs wd fp =
      if (C.data.take maxChars).length = maxChars then
        String.mk (C.data.take maxChars) ++ "\n[...File \"" ++ fp
          ++ "\" truncated at " ++ toString maxChars ++ " characters]"
      else String.mk (C.data.take maxChars) := by
  rw [getFileContent]
  simp only [hsb, eq_self_iff_true, not_true, ite_false, hlook]

/-- C8 counterexample: a file whose content has length exactly `MAX_CHARS`
(the budget) is read back *with* the truncation marker appended, because the
code tests `len(content) == MAX_CHARS` after `f.read(MAX_CHARS)` — the claim
says content of length exactly the budget comes back unmarked. -/
theorem read_budget_boundary_marked :
    getFileContent "/s".data [("/s/todo/big.txt".data, bigContent)] "todo" "big.txt" =
      bigContent ++ "\n[...File \"" ++ "big.txt" ++ "\" truncated at "
        ++ toString maxChars ++ " characters]" ∧
    getFileContent "/s".data [("/s/todo/big.txt".data, bigContent)] "todo" "big.txt" ≠
      bigContent := by
  have hdata : bigContent.data = List.replicate maxChars 'a' := rfl
  have htake : bigContent.data.take maxChars = bigContent.data := by
    rw [hdata, List.take_replicate, min_self]
  have hlen : (bigContent.data.take maxChars).length = maxChars := by
    rw [htake, hdata, List.length_replicate]
  have hlook : fsLookup [("/s/todo/big.txt".data, bigContent)]
      (osAbspath "/s".data (osJoin "todo".data "big.txt".data)) = some bigContent := by
    have hpath : osAbspath "/s".data (osJoin "todo".data "big.txt".data)
        = "/s/todo/big.txt".data := by decide
    rw [hpath]
    simp [fsLookup]
  have hread := getFileContent_found "/s".data [("/s/todo/big.txt".data, bigContent)]
    "todo" "big.txt" bigContent (by decide) hlook
  rw [if_pos hlen, htake] at hread
  have hread2 : getFileContent "/s".data [("/s/todo/big.txt".data, bigContent)]
      "todo" "big.txt" =
      bigContent ++ "\n[...File \"" ++ "big.txt" ++ "\" truncated at "
        ++ toString maxChars ++ " characters]" := hread
  refine ⟨hread2, ?_⟩
  rw [hread2]
  intro hc
  have h1 := congrArg String.length hc
  simp only [String.length_append] at h1
  have h2 : ("\n[...File \"" : String).length = 11 := by decide
  omega

/-- C8 (amended): `overwrite(p, C)` followed by `read(p)` on an in-sandbox
path returns exactly `C` when `len(C) < MAX_CHARS`; when
`len(C) ≥ MAX_CHARS` — including length exactly `MAX_CHARS` — it returns the
first `MAX_CHARS` characters with the truncation marker appended. -/
theorem overwrite_read_roundtrip (cwd : List Char) (fs : FS) (wd p C : String)
    (hsb : (osAbspath cwd wd.data).isPrefixOf
      (osAbspath cwd (osJoin wd.data p.data)) = true) :
    (C.data.length < maxChars →
      getFileContent cwd (overwriteFile cwd fs wd p C).1 wd p = C) ∧
    (maxChars ≤ C.data.length →
      getFileContent cwd (overwriteFile cwd fs wd p C).1 wd p =
        String.mk (C.data.take maxChars) ++ "\n[...File \"" ++ p
          ++ "\" truncated at " ++ toString maxChars ++ " characters]") := by
  have hfs : (overwriteFile cwd fs wd p C).1 =
      fsWrite fs (osAbspath cwd (osJoin wd.data p.data)) C := by
    rw [overwriteFile]
    simp [hsb]
  have hread := getFileContent_found cwd (overwriteFile cwd fs wd p C).1 wd p C hsb
    (by rw [hfs]; exact fsWrite_lookup fs _ C)
  constructor
  · intro hlt
    have htake : C.data.take maxChars = C.data :=
      List.take_of_length_le (by omega)
    rw [hread, htake, if_neg (by omega : ¬ (C.data.length = maxChars))]
  · intro hge
    have hlen : (C.data.take maxChars).length = maxChars := by
      rw [List.length_take]; omega
    rw [hread, if_pos hlen]

/-- C8 witness: write `"hi"` to `a.txt` under the sandbox and read it back
unchanged. -/
theorem overwrite_read_roundtrip_instance :
    (osAbspath "/s".data "todo".data).isPrefixOf
      (osAbspath "/s".data (osJoin "todo".data "a.txt".data)) = true ∧
    getFileContent "/s".data
      (overwriteFile "/s".data [] "todo" "a.txt" "hi").1 "todo" "a.txt" = "hi" :=
  ⟨by decide,
    (overwrite_read_roundtrip "/s".data [] "todo" "a.txt" "hi" (by decide)).1
      (by decide)⟩

/-- C6: on an in-sandbox file with content `C`, `replace_str_file` — when `C`
contains `old` — rewrites the file to `C` with every occurrence of `old`
replaced by `new` (Python `str.replace` semantics, not just the first
occurrence) and returns a non-empty result: the joined unified-diff lines,
or the fallback success message when the diff list is empty.  When `C` does
not contain `old`, the filesystem is unchanged and the not-found error
message is returned.  The hypothesis on `udiff` states the property of
`difflib.unified_diff` that a nonempty line list joins to a nonempty
string (every emitted line is nonempty). -/
theorem replace_all_semantics (udiff : String → String → List String)
    (cwd : List Char) (fs : FS) (wd p old new C : String)
    (hud : ∀ a b, String.join (udiff a b) = "" → udiff a b = [])
    (hsb : (osAbspath cwd wd.data).isPrefixOf
      (osAbspath cwd (osJoin wd.data p.data)) = true)
    (hlook : fsLookup fs (osAbspath cwd (osJoin wd.data p.data)) = some C) :
    (containsSub C.data old.data = true →
      (replaceStrFile udiff cwd fs wd p old new).1 =
        fsWrite fs (osAbspath cwd (osJoin wd.data p.data)) (pyReplaceStr C old new) ∧
      (replaceStrFile udiff cwd fs wd p old new).2 ≠ "") ∧
    (containsSub C.data old.data = false →
      (replaceStrFile udiff cwd fs wd p old new).1 = fs ∧
      (replaceStrFile udiff cwd fs wd p old new).2 =
        "String \"" ++ old ++ "\" not found in file \"" ++ p ++ "\"") := by
  constructor
  · intro hin
    rw [replaceStrFile]
    simp only [hsb, eq_self_iff_true, not_true, ite_false, hlook, hin,
      Bool.true_eq_false, if_false]
    refine ⟨by trivial, ?_⟩
    by_cases hd : udiff C (pyReplaceStr C old new) = []
    · simp only [hd, if_pos rfl]
      apply strAppend_ne_empty
      apply strAppend_ne_empty
      apply strAppend_ne_empty
      apply strAppend_ne_empty
      apply strAppend_ne_empty
      decide
    · simp only [hd, if_false, ite_false]
      intro hc
      exact hd (hud C (pyReplaceStr C old new) hc)
  · intro hout
    rw [replaceStrFile]
    simp only [hsb, eq_self_iff_true, not_true, ite_false, hlook, hout,
      Bool.false_eq_true, not_false_iff, if_true]
    exact ⟨by trivial, by trivial⟩

/-- C6 witness: the spec scenario — a file containing `"foo foo"`, replacing
`"foo"` with `"bar"` yields content `"bar bar"` and a non-empty result. -/
theorem replace_all_semantics_instance :
    containsSub "foo foo".data "foo".data = true ∧
    pyReplaceStr "foo foo" "foo" "bar" = "bar bar" ∧
    (replaceStrFile (fun _ _ => []) "/s".data [("/s/todo/a.txt".data, "foo foo")]
        "todo" "a.txt" "foo" "bar").1 =
      fsWrite [("/s/todo/a.txt".data, "foo foo")]
        (osAbspath "/s".data (osJoin "todo".data "a.txt".data))
        (pyReplaceStr "foo foo" "foo" "bar") ∧
    (replaceStrFile (fun _ _ => []) "/s".data [("/s/todo/a.txt".data, "foo foo")]
        "todo" "a.txt" "foo" "bar").2 ≠ "" := by
  refine ⟨by decide, by decide, ?_⟩
  exact (replace_all_semantics (fun _ _ => []) "/s".data
    [("/s/todo/a.txt".data, "foo foo")] "todo" "a.txt" "foo" "bar" "foo foo"
    (fun _ _ _ => rfl) (by decide) (by decide)).1 (by decide)

/-- C7 counterexample: `todo_done` in `functions.py` marks a valid item done
but records *no* completion timestamp — the persisted item's `completed`
field stays absent (`none`), refuting the claim that `markDone(i)` sets
`completed=now`. -/
theorem mark_done_no_timestamp :
    todoDone (some [⟨"t", false, none, none⟩]) 1 =
      (some [⟨"t", true, none, none⟩], "🎉 Completed: t") ∧
    (⟨"t", true, none, none⟩ : TodoItem).completed = none := by
  constructor
  · decide
  · rfl

/-- C7 (amended): for a stored list `ts` and 1-based index `i`, a valid
`markDone(i)` persists `ts` with item `i`'s `done` set to `true` — no
`completed` timestamp is written by this implementation — and every other
item is unchanged; an out-of-range `i` leaves the store unchanged and
returns the invalid-index error (or the no-todos error when the list is
empty). -/
theorem mark_done_frame (ts : List TodoItem) (i : Int) :
    (1 ≤ i → i ≤ ts.length →
      ∃ t, ts[(i - 1).toNat]? = some t ∧
        todoDone (some ts) i =
          (some (ts.set (i - 1).toNat { t with done := true }),
            "🎉 Completed: " ++ t.task) ∧
        (∀ j : Nat, j ≠ (i - 1).toNat →
          (ts.set (i - 1).toNat { t with done := true })[j]? = ts[j]?) ∧
        (ts.set (i - 1).toNat { t with done := true })[(i - 1).toNat]? =
          some { t with done := true }) ∧
    (¬ (1 ≤ i ∧ i ≤ ts.length) → ts ≠ [] →
      todoDone (some ts) i = (some ts, "❌ Invalid todo number")) ∧
    (ts = [] → todoDone (some ts) i = (some ts, "❌ No todos found!")) := by
  refine ⟨?_, ?_, ?_⟩
  · intro h1 h2
    have hlen : 0 < ts.length := by omega
    have hk : (i - 1).toNat < ts.length := by omega
    have hemp : ts.isEmpty = false := by
      cases ts with
      | nil => simp at hlen
      | cons x xs => rfl
    have hget : ∃ t, ts[(i - 1).toNat]? = some t := by
      rw [List.getElem?_eq_getElem hk]
      exact ⟨ts[(i - 1).toNat], rfl⟩
    obtain ⟨t, ht⟩ := hget
    refine ⟨t, ht, ?_, ?_, ?_⟩
    · rw [todoDone]
      simp only [hemp, Bool.false_eq_true, if_false,
        if_pos (⟨h1, h2⟩ : 1 ≤ i ∧ i ≤ ts.length), ht]
    · intro j hj
      exact List.getElem?_set_ne (fun h => hj h.symm)
    · exact List.getElem?_set_eq_of_lt _ hk
  · intro hrange hne
    have hemp : ts.isEmpty = false := by
      cases ts with
      | nil => exact absurd rfl hne
      | cons x xs => rfl
    rw [todoDone]
    simp only [hemp, Bool.false_eq_true, if_false, if_neg hrange]
  · intro hts
    rw [hts, todoDone]
    rfl

/-- C7 witness: the amended statement at a two-item store, marking item 2. -/
theorem mark_done_frame_instance :
    todoDone (some [⟨"a", false, none, none⟩, ⟨"b", false, none, none⟩]) 2 =
      (some [⟨"a", false, none, none⟩, ⟨"b", true, none, none⟩],
        "🎉 Completed: b") ∧
    todoDone (some [⟨"a", false, none, none⟩, ⟨"b", false, none, none⟩]) 3 =
      (some [⟨"a", false, none, none⟩, ⟨"b", false, none, none⟩],
        "❌ Invalid todo number") := by
  have h := mark_done_frame [⟨"a", false, none, none⟩, ⟨"b", false, none, none⟩] 2
  obtain ⟨t, ht, heq, -, -⟩ := h.1 (by decide) (by decide)
  have ht2 : t = (⟨"b", false, none, none⟩ : TodoItem) := by
    simp at ht
    exact ht.symm
  rw [ht2] at heq
  refine ⟨?_, ?_⟩
  · rw [heq]; decide
  · exact (mark_done_frame [⟨"a", false, none, none⟩, ⟨"b", false, none, none⟩] 3).2.1
      (by decide) (by decide)

/-- C10: marking an already-done todo a second time leaves the persisted
store identical to its state before the call, in both implementations:
`functions.py`'s `todo_done` re-sets `done = true` (a value-level no-op) and
rewrites the same document, and the toolbox variant `mark_todo_done` returns
early without saving. -/
theorem mark_done_idempotent (ts : List TodoItem) (i : Int) (now : String)
    (h1 : 1 ≤ i) (h2 : i ≤ ts.length) (t : TodoItem)
    (ht : ts[(i - 1).toNat]? = some t) (htd : t.done = true) :
    (todoDone (some ts) i).1 = some ts ∧ (markTodoDone ts i now).1 = ts := by
  have hlen : 0 < ts.length := by omega
  have hset : { t with done := true } = t := by
    cases t with
    | mk task done created completed =>
      simp at htd
      simp [htd]
  constructor
  · have hemp : ts.isEmpty = false := by
      cases ts with
      | nil => simp at hlen
      | cons x xs => rfl
    rw [todoDone]
    simp only [hemp, Bool.false_eq_true, if_false,
      if_pos (⟨h1, h2⟩ : 1 ≤ i ∧ i ≤ ts.length), ht]
    rw [hset, set_of_getElem? ts _ t ht]
  · have hne : ¬ (ts = []) := by
      intro hc
      rw [hc] at hlen
      simp at hlen
    rw [markTodoDone]
    simp only [hne, if_false, ite_false]
    rw [if_neg (by omega : ¬ (i < 1 ∨ i > ts.length))]
    simp only [ht, htd, if_pos rfl, ite_true]

/-- C10 witness: re-marking the already-done single item leaves both stores
unchanged. -/
theorem mark_done_idempotent_instance :
    (todoDone (some [⟨"t", true, none, some "2020"⟩]) 1).1 =
      some [⟨"t", true, none, some "2020"⟩] ∧
    (markTodoDone [⟨"t", true, none, some "2020"⟩] 1 "2025").1 =
      [⟨"t", true, none, some "2020"⟩] :=
  mark_done_idempotent [⟨"t", true, none, some "2020"⟩] 1 "2025"
    (by decide) (by decide) ⟨"t", true, none, some "2020"⟩ (by decide) rfl
